import Mathlib

/-!
Shallow embedding of the crouton CRUD router
(src/pkgs/crouton/crouton/core/sqlalchemy.py, class SQLAlchemyCRUDRouter) and of the
companion client (src/pkgs/crouton_client/crouton_client/client.py and async.py),
together with theorems checking the natural-language specification against the code.

The database engine under SQLAlchemy is outside the repository, so what an engine
commit does (succeed, raise an IntegrityError, raise another SQLAlchemyError) is an
input of the embedding; everything the router itself does is translated from the
source.  Records live in a single flat table, mirroring the scope of the spec
(no relationships or joins beyond flat single-table records).
-/

namespace Crouton

/-- Embeds fastapi HTTPException as raised by the router: a status code and a detail string. -/
structure HTTPException where
  status_code : Nat
  detail : String
deriving DecidableEq, Repr

/-- Embeds fastapi Response(status_code) as returned by the delete routes: a status code and
an absent body (Response built with only a status code carries no body). -/
structure Response where
  status_code : Nat
  body : Option String
deriving DecidableEq, Repr

/-- Python substring test (pat in hay), character by character over the string data. -/
def containsSub (pat : List Char) : List Char → Bool
  | [] => pat.isEmpty
  | c :: t => pat.isPrefixOf (c :: t) || containsSub pat t

/-- Python (pat in hay) on strings. -/
def strContains (hay pat : String) : Bool := containsSub pat.data hay.data

/-- Python str.lower, as applied to str(exc.orig) in SQLAlchemyCRUDRouter._db_commit. -/
def pyLower (s : String) : List Char := s.data.map Char.toLower

/-- The discriminator on line 131 of sqlalchemy.py: an IntegrityError counts as a uniqueness
violation exactly when the lowered rendering of exc.orig contains the text "unique". -/
def isUniqueViolation (origMsg : String) : Bool :=
  containsSub "unique".data (pyLower origMsg)

/-- A value of a column, covering the primitive column types the router coerces to. -/
inductive Value where
  | intV (n : Int)
  | strV (s : String)
  | boolV (b : Bool)
deriving DecidableEq, Repr

/-- The python_type of a column, used by _parse_query_params for coercion. -/
inductive FieldType where
  | intT
  | strT
  | boolT
deriving DecidableEq, Repr

/-- Helper for Python int(s): reads a run of decimal digits, failing on any other character. -/
def readDigitsAux : List Char → Nat → Option Nat
  | [], acc => some acc
  | c :: cs, acc => if c.isDigit then readDigitsAux cs (acc * 10 + (c.toNat - 48)) else none

/-- Python int(s) on a string: an optional sign followed by a nonempty run of digits;
anything else raises ValueError, modelled as none. -/
def pyInt (s : String) : Option Int :=
  match s.data with
  | [] => none
  | c :: rest =>
    if c = '-' then
      (if rest.isEmpty then none else (readDigitsAux rest 0).map (fun n => -(n : Int)))
    else if c = '+' then
      (if rest.isEmpty then none else (readDigitsAux rest 0).map (fun n => (n : Int)))
    else (readDigitsAux (c :: rest) 0).map (fun n => (n : Int))

/-- column.type.python_type applied to a raw query-parameter string, i.e. int(value),
str(value) or bool(value): int raises ValueError on a non-integer literal (none here);
str never fails; bool of a string is False exactly on the empty string and never fails. -/
def pythonCast : FieldType → String → Option Value
  | .intT, s => (pyInt s).map Value.intV
  | .strT, s => some (Value.strV s)
  | .boolT, s => some (Value.boolV (!s.isEmpty))

/-- A persisted row of the single modelled table: the integer primary-key column value plus
the remaining columns as an association list from column name to value. -/
structure Record where
  pkVal : Nat
  attrs : List (String × Value)
deriving DecidableEq, Repr

/-- Reading a column of a row: the primary-key column name yields the primary-key value,
any other name is looked up among the remaining columns. -/
def Record.getField (pk : String) (r : Record) (f : String) : Option Value :=
  if f = pk then some (Value.intV (Int.ofNat r.pkVal)) else r.attrs.lookup f

/-- Python hasattr(obj, f) on a mapped row: f is the primary-key column or one of the
other columns of the row. -/
def Record.hasattr (pk : String) (r : Record) (f : String) : Bool :=
  f == pk || (r.attrs.lookup f).isSome

/-- Python setattr(obj, f, v) on a non-primary-key column: the named column is overwritten,
every other column and the primary key are untouched. -/
def Record.setAttr (r : Record) (f : String) (v : Value) : Record :=
  { r with attrs := r.attrs.map (fun kv => if kv.1 == f then (kv.1, v) else kv) }

/-- filter_by(**filters): a row matches when every filter pair equals the corresponding
column value of the row. -/
def matchesFilters (pk : String) (r : Record) (filters : List (String × Value)) : Bool :=
  filters.all (fun kv => decide (r.getField pk kv.1 = some kv.2))

/-- Insertion into a run of rows kept in ascending primary-key order. -/
def insertByPk (r : Record) : List Record → List Record
  | [] => [r]
  | x :: xs => if r.pkVal ≤ x.pkVal then r :: x :: xs else x :: insertByPk r xs

/-- order_by(primary key): the rows sorted by primary key ascending. -/
def sortByPk : List Record → List Record
  | [] => []
  | x :: xs => insertByPk x (sortByPk xs)

/-- What the underlying database engine does when db.commit() runs: it either succeeds,
raises an IntegrityError whose exc.orig renders to the given message, or raises another
SQLAlchemyError rendering to the given message.  The engine is outside the repository,
so its outcome is an input of the embedding. -/
inductive CommitOutcome where
  | ok
  | integrityErr (origMsg : String)
  | dbErr (msg : String)
deriving DecidableEq, Repr

/-- The except clauses of SQLAlchemyCRUDRouter._db_commit: the HTTPException raised for
each failing engine outcome, none for a successful commit.  An IntegrityError becomes 409
when its origin message contains "unique" case-insensitively and 422 otherwise, with
detail str(exc.orig); any other SQLAlchemyError becomes 500. -/
def classifyCommit : CommitOutcome → Option HTTPException
  | .ok => none
  | .integrityErr m => some ⟨if isUniqueViolation m then 409 else 422, m⟩
  | .dbErr m => some ⟨500, "Database error: " ++ m⟩

/-- A SQLAlchemy session over the table: base is the last committed state, pending is the
state with the session uncommitted changes applied.  commit makes pending durable,
rollback discards pending. -/
structure Session where
  base : List Record
  pending : List Record
deriving DecidableEq, Repr

/-- SQLAlchemyCRUDRouter._db_commit as a state transformer: try db.commit(); on success the
pending state becomes durable; on any caught engine error db.rollback() runs (pending is
discarded, base is kept) and the classified HTTPException is raised. -/
def _db_commit (s : Session) (o : CommitOutcome) : Session × Option HTTPException :=
  match classifyCommit o with
  | none => (⟨s.pending, s.pending⟩, none)
  | some e => (⟨s.base, s.base⟩, some e)

/-- SQLAlchemyCRUDRouter._parse_query_params: walk the query-parameter pairs in order,
skip the pagination keys, coerce values of declared columns with the column python_type
(422 on coercion failure), and reject any key that is not a declared column (400). -/
def _parse_query_params (cols : List (String × FieldType)) :
    List (String × String) → Except HTTPException (List (String × Value))
  | [] => .ok []
  | (key, value) :: rest =>
    if key = "skip" ∨ key = "limit" then _parse_query_params cols rest
    else
      match cols.lookup key with
      | some t =>
        match pythonCast t value with
        | some v => (_parse_query_params cols rest).map (fun fs => (key, v) :: fs)
        | none => .error ⟨422, "Invalid value for " ++ key⟩
      | none => .error ⟨400, "Invalid filter field: " ++ key⟩

/-- The query built inside the _get_all route: filter_by the parsed filters, order_by the
primary key ascending, offset skip, limit limit, all(). -/
def _get_all_query (pk : String) (store : List Record) (filters : List (String × Value))
    (skip limit : Nat) : List Record :=
  ((sortByPk (store.filter (fun r => matchesFilters pk r filters))).drop skip).take limit

/-- The _get_all route: parse the query parameters into filters, run the query, and raise
404 when the resulting list is empty. -/
def _get_all (pk : String) (cols : List (String × FieldType)) (store : List Record)
    (qp : List (String × String)) (skip limit : Nat) : Except HTTPException (List Record) :=
  match _parse_query_params cols qp with
  | .error e => .error e
  | .ok filters =>
    let objs := _get_all_query pk store filters skip limit
    if objs.isEmpty then .error ⟨404, "No matching records found."⟩ else .ok objs

/-- The _get_one route: db.get by primary key, raising 404 when no row has the key. -/
def _get_one (store : List Record) (item_id : Nat) : Except HTTPException Record :=
  match store.find? (fun r => r.pkVal == item_id) with
  | none => .error ⟨404, "Item not found."⟩
  | some r => .ok r

/-- The field loop of the _update route: for each pair of model.dict(exclude_unset=True),
setattr runs only when the field differs from the primary-key name and hasattr holds. -/
def applyPayload (pk : String) (r : Record) (payload : List (String × Value)) : Record :=
  payload.foldl
    (fun acc fv =>
      if fv.1 ≠ pk ∧ Record.hasattr pk acc fv.1 = true then acc.setAttr fv.1 fv.2 else acc)
    r

/-- The _update route as a state transformer returning the committed store and the response:
fetch-or-404 first, then the field loop on the fetched row, then _db_commit; a failing
commit rolls back, leaving the store unchanged. -/
def _update (pk : String) (store : List Record) (item_id : Nat)
    (payload : List (String × Value)) (o : CommitOutcome) :
    List Record × Except HTTPException Record :=
  match _get_one store item_id with
  | .error e => (store, .error e)
  | .ok obj =>
    let obj2 := applyPayload pk obj payload
    match classifyCommit o with
    | some e => (store, .error e)
    | none => (store.map (fun r => if r.pkVal == item_id then obj2 else r), .ok obj2)

/-- The _delete_one route as a state transformer: fetch-or-404 first, then db.delete of the
fetched row and _db_commit; a failing commit rolls back, leaving the store unchanged. -/
def _delete_one (store : List Record) (item_id : Nat) (o : CommitOutcome) :
    List Record × Except HTTPException Response :=
  match _get_one store item_id with
  | .error e => (store, .error e)
  | .ok _ =>
    match classifyCommit o with
    | some e => (store, .error e)
    | none => (store.filter (fun r => !(r.pkVal == item_id)), .ok ⟨204, none⟩)

/-- The _delete_all route as a state transformer: db.query(model).delete() removes every
row of the table in the session, then _db_commit runs; a successful commit leaves the
table empty and the route returns Response(status_code=204) with no body, while a failing
commit rolls back, leaving the store unchanged, and raises the classified error. -/
def _delete_all (store : List Record) (o : CommitOutcome) :
    List Record × Except HTTPException Response :=
  match classifyCommit o with
  | some e => (store, .error e)
  | none => ([], .ok ⟨204, none⟩)

/-- An HTTP response as seen by the companion client: status code and body text. -/
structure Resp where
  status_code : Nat
  text : String
deriving DecidableEq, Repr

/-- What one companion-client call does with a received response: returns the body, raises
ValueError with an optional message, or raises AttributeError carrying the name of the
missing attribute (as AsyncCroutonClient does by calling a method the response lacks). -/
inductive ClientOutcome where
  | ok (body : String)
  | valueError (msg : Option String)
  | attributeError (missingAttr : String)
deriving DecidableEq, Repr

/-- httpx response.is_success: the 2xx range. -/
def is_success (r : Resp) : Bool := decide (200 ≤ r.status_code) && decide (r.status_code < 300)

/-- Response handling shared by every CroutonClient method, synchronous (get, post, put,
delete) and asynchronous (aget, apost, aput, adelete) alike: res.raise_for_status() passes
2xx responses through to res.json() and otherwise raises, caught and re-raised as
ValueError with a message naming the verb, the origin status code and the body text. -/
def client_request_result (verb : String) (res : Resp) : ClientOutcome :=
  if is_success res then .ok res.text
  else
    .valueError
      (some (verb ++ " request failed with status " ++ toString res.status_code ++ ": " ++ res.text))

/-- Response handling of every AsyncCroutonClient method (async.py): the code calls
res.model_dump_json() on the requests response in both branches — to return the body when
the status is 200 and, on any other status, inside the f-string handed to logger.error
just before the bare raise ValueError — but a requests Response has no model_dump_json
attribute, so each branch raises AttributeError there instead, before any return, any log
line and the ValueError. -/
def async_client_result (res : Resp) : ClientOutcome :=
  if res.status_code = 200 then ClientOutcome.attributeError "model_dump_json"
  else ClientOutcome.attributeError "model_dump_json"

/-- A client failure carries the origin status code and body text when it is a ValueError
whose message contains the rendered status code and the body text as substrings. -/
def carries_status_and_body (res : Resp) (o : ClientOutcome) : Prop :=
  ∃ m, o = ClientOutcome.valueError (some m) ∧
    strContains m (toString res.status_code) = true ∧ strContains m res.text = true

/-- The payload preparation of CroutonClient.post, CroutonClient.apost and
AsyncCroutonClient.post: when the dictionary lacks the key id, a freshly generated UUID is
inserted under id into that same dictionary; the result is both the request body and the
dictionary the caller observes afterwards, since the mutation is in place. -/
def post_prepare (uuid : String) (data_obj : List (String × Value)) : List (String × Value) :=
  if data_obj.lookup "id" = none then data_obj ++ [("id", Value.strV uuid)] else data_obj

theorem db_commit_integrity_eq (s : Session) (m : String) :
    _db_commit s (CommitOutcome.integrityErr m) =
      (⟨s.base, s.base⟩, some ⟨if isUniqueViolation m then 409 else 422, m⟩) := rfl

theorem db_commit_dbErr_eq (s : Session) (m : String) :
    _db_commit s (CommitOutcome.dbErr m) =
      (⟨s.base, s.base⟩, some ⟨500, "Database error: " ++ m⟩) := rfl

theorem lookup_append_left_none {α β : Type} [BEq α] (l1 l2 : List (α × β)) (a : α)
    (h : l1.lookup a = none) : (l1 ++ l2).lookup a = l2.lookup a := by
  induction l1 with
  | nil => rfl
  | cons kv t ih =>
    rw [List.cons_append]
    rw [List.lookup] at h ⊢
    split at h
    · exact absurd h (by simp)
    · exact ih h

/-- Claim C1: on a commit failure during create or update, _db_commit maps an integrity
(constraint) violation to 409 exactly when it is a uniqueness violation and to 422 for
every other relational constraint violation, and maps any non-constraint storage failure
raised during commit to 500. -/
theorem c1_commit_error_mapping (s : Session) (m d : String) :
    (∀ e, (_db_commit s (CommitOutcome.integrityErr m)).2 = some e →
      (e.status_code = 409 ↔ isUniqueViolation m = true) ∧
      (e.status_code = 422 ↔ isUniqueViolation m = false)) ∧
    (∀ e, (_db_commit s (CommitOutcome.dbErr d)).2 = some e → e.status_code = 500) ∧
    (∃ e, (_db_commit s (CommitOutcome.integrityErr m)).2 = some e) ∧
    (∃ e, (_db_commit s (CommitOutcome.dbErr d)).2 = some e) := by
  refine ⟨?_, ?_, ?_, ?_⟩
  · intro e he
    rw [db_commit_integrity_eq] at he
    injection he with he
    subst he
    by_cases h : isUniqueViolation m <;> simp [h]
  · intro e he
    rw [db_commit_dbErr_eq] at he
    injection he with he
    subst he
    rfl
  · exact ⟨⟨if isUniqueViolation m then 409 else 422, m⟩, by rw [db_commit_integrity_eq]⟩
  · exact ⟨⟨500, "Database error: " ++ d⟩, by rw [db_commit_dbErr_eq]⟩

/-- Witness for C1 at three concrete engine failures: a uniqueness IntegrityError maps to
409, a non-uniqueness IntegrityError maps to 422, a non-constraint failure maps to 500. -/
theorem c1_commit_error_mapping_witness :
    (∃ e, (_db_commit ⟨[], []⟩
        (CommitOutcome.integrityErr "UNIQUE constraint failed")).2 = some e ∧
      e.status_code = 409) ∧
    (∃ e, (_db_commit ⟨[], []⟩
        (CommitOutcome.integrityErr "FOREIGN KEY constraint failed")).2 = some e ∧
      e.status_code = 422) ∧
    (∃ e, (_db_commit ⟨[], []⟩ (CommitOutcome.dbErr "disk full")).2 = some e ∧
      e.status_code = 500) := by
  refine ⟨?_, ?_, ?_⟩
  · obtain ⟨e, he⟩ :=
      (c1_commit_error_mapping ⟨[], []⟩ "UNIQUE constraint failed" "disk full").2.2.1
    exact ⟨e, he,
      (((c1_commit_error_mapping ⟨[], []⟩ "UNIQUE constraint failed" "disk full").1 e
        he).1).mpr (by decide)⟩
  · obtain ⟨e, he⟩ :=
      (c1_commit_error_mapping ⟨[], []⟩ "FOREIGN KEY constraint failed" "disk full").2.2.1
    exact ⟨e, he,
      (((c1_commit_error_mapping ⟨[], []⟩ "FOREIGN KEY constraint failed" "disk full").1 e
        he).2).mpr (by decide)⟩
  · obtain ⟨e, he⟩ := (c1_commit_error_mapping ⟨[], []⟩ "x" "disk full").2.2.2
    exact ⟨e, he, (c1_commit_error_mapping ⟨[], []⟩ "x" "disk full").2.1 e he⟩

/-- Claim C4: whenever a commit fails, _db_commit rolls the session back before raising the
translated typed error: the committed state is unchanged, the pending changes are
discarded, and the raised error is one of the classified HTTPExceptions (409, 422 or
500), so no raw storage-layer exception escapes the adapter unclassified. -/
theorem c4_commit_rollback (s : Session) (o : CommitOutcome) (h : o ≠ CommitOutcome.ok) :
    (_db_commit s o).1.base = s.base ∧ (_db_commit s o).1.pending = s.base ∧
    ∃ e, (_db_commit s o).2 = some e ∧
      (e.status_code = 409 ∨ e.status_code = 422 ∨ e.status_code = 500) := by
  cases o with
  | ok => exact absurd rfl h
  | integrityErr m =>
    rw [db_commit_integrity_eq]
    refine ⟨rfl, rfl, ⟨if isUniqueViolation m then 409 else 422, m⟩, rfl, ?_⟩
    by_cases hm : isUniqueViolation m <;> simp [hm]
  | dbErr m =>
    rw [db_commit_dbErr_eq]
    exact ⟨rfl, rfl, ⟨500, "Database error: " ++ m⟩, rfl, Or.inr (Or.inr rfl)⟩

/-- Witness for C4 at a concrete session holding one uncommitted row and a concrete
non-constraint engine failure. -/
theorem c4_commit_rollback_witness :
    (_db_commit ⟨[], [⟨1, []⟩]⟩ (CommitOutcome.dbErr "disk full")).1.base = [] ∧
    (_db_commit ⟨[], [⟨1, []⟩]⟩ (CommitOutcome.dbErr "disk full")).1.pending = [] ∧
    ∃ e, (_db_commit ⟨[], [⟨1, []⟩]⟩ (CommitOutcome.dbErr "disk full")).2 = some e ∧
      (e.status_code = 409 ∨ e.status_code = 422 ∨ e.status_code = 500) :=
  c4_commit_rollback ⟨[], [⟨1, []⟩]⟩ (CommitOutcome.dbErr "disk full") (by decide)

/-- The counterexample to claim C7 as stated: a delete-all whose commit raises a
non-constraint storage failure does not succeed — it fails 500 and the rollback leaves the
collection unchanged — so the route does not always succeed. -/
theorem c7_counterexample_delete_all_commit_failure :
    (_delete_all [⟨1, []⟩] (CommitOutcome.dbErr "disk full")).2 =
      Except.error ⟨500, "Database error: disk full"⟩ ∧
    (_delete_all [⟨1, []⟩] (CommitOutcome.dbErr "disk full")).1 = [⟨1, []⟩] :=
  ⟨rfl, rfl⟩

/-- Claim C7 as amended: the outcome of delete_all never depends on the collection state —
in particular an already-empty collection causes no failure — and whenever the engine
commit succeeds the call returns 204 with no body and leaves the collection empty; a
second delete_all whose commit succeeds also succeeds, the collection being empty after
each of the two calls; a failing commit is rolled back, leaving the collection unchanged,
and is surfaced as a classified 409, 422 or 500 error. -/
theorem c7_amended_delete_all (store store2 : List Record) (o : CommitOutcome) :
    (_delete_all store o).2 = (_delete_all store2 o).2 ∧
    _delete_all store CommitOutcome.ok = ([], Except.ok ⟨204, none⟩) ∧
    _delete_all (_delete_all store CommitOutcome.ok).1 CommitOutcome.ok =
      ([], Except.ok ⟨204, none⟩) ∧
    (o ≠ CommitOutcome.ok →
      (_delete_all store o).1 = store ∧
      ∃ e, (_delete_all store o).2 = Except.error e ∧
        (e.status_code = 409 ∨ e.status_code = 422 ∨ e.status_code = 500)) := by
  refine ⟨by cases o <;> rfl, rfl, rfl, ?_⟩
  intro h
  cases o with
  | ok => exact absurd rfl h
  | integrityErr m =>
    refine ⟨rfl, ⟨if isUniqueViolation m then 409 else 422, m⟩, rfl, ?_⟩
    by_cases hm : isUniqueViolation m <;> simp [hm]
  | dbErr m => exact ⟨rfl, ⟨500, "Database error: " ++ m⟩, rfl, Or.inr (Or.inr rfl)⟩

/-- Witness for the amended C7 at a one-row collection: the failure outcome is independent
of the collection, a committed delete-all empties it with 204 and no body twice in a row,
and a failing commit leaves the row in place. -/
theorem c7_amended_delete_all_witness :
    (_delete_all [⟨1, []⟩] (CommitOutcome.dbErr "boom")).2 =
      (_delete_all [] (CommitOutcome.dbErr "boom")).2 ∧
    _delete_all [⟨1, []⟩] CommitOutcome.ok = ([], Except.ok ⟨204, none⟩) ∧
    _delete_all (_delete_all [⟨1, []⟩] CommitOutcome.ok).1 CommitOutcome.ok =
      ([], Except.ok ⟨204, none⟩) ∧
    (_delete_all [⟨1, []⟩] (CommitOutcome.dbErr "boom")).1 = [⟨1, []⟩] := by
  have h := c7_amended_delete_all [⟨1, []⟩] [] (CommitOutcome.dbErr "boom")
  have h2 := c7_amended_delete_all [⟨1, []⟩] [] CommitOutcome.ok
  exact ⟨h.1, h2.2.1, h2.2.2.1, (h.2.2.2 (by decide)).1⟩

/-- Claim C10: the companion-client create calls (post, apost and the AsyncCroutonClient
post) insert the freshly generated UUID under the key id into the payload dictionary
exactly when that key is absent, and send an unchanged payload when it is present;
post_prepare is simultaneously the request body and the dictionary the caller observes
after the call, embedding the in-place mutation. -/
theorem c10_post_inserts_id (uuid : String) (d : List (String × Value)) :
    (d.lookup "id" = none →
      post_prepare uuid d = d ++ [("id", Value.strV uuid)] ∧
      (post_prepare uuid d).lookup "id" = some (Value.strV uuid)) ∧
    (∀ v, d.lookup "id" = some v → post_prepare uuid d = d) := by
  constructor
  · intro h
    refine ⟨by simp [post_prepare, h], ?_⟩
    rw [post_prepare, if_pos h, lookup_append_left_none _ _ _ h]
    rfl
  · intro v h
    simp [post_prepare, h]

/-- Witness for C10: a payload without id gets the generated UUID appended and a payload
already holding id is sent unchanged. -/
theorem c10_post_inserts_id_witness :
    (post_prepare "u-1" [("name", Value.strV "a")] =
        [("name", Value.strV "a")] ++ [("id", Value.strV "u-1")] ∧
      (post_prepare "u-1" [("name", Value.strV "a")]).lookup "id" =
        some (Value.strV "u-1")) ∧
    post_prepare "u-1" [("id", Value.strV "x")] = [("id", Value.strV "x")] :=
  ⟨(c10_post_inserts_id "u-1" [("name", Value.strV "a")]).1 (by decide),
   (c10_post_inserts_id "u-1" [("id", Value.strV "x")]).2 (Value.strV "x") (by decide)⟩

/-- Claim C5: an update whose id matches no record fails not-found for every possible engine
commit outcome (so no commit is attempted and the store is unchanged), with exactly the
HTTPException of _get_one and _delete_one on the same missing id. -/
theorem c5_update_not_found_first (pk : String) (store : List Record) (item_id : Nat)
    (payload : List (String × Value)) (o : CommitOutcome)
    (h : store.find? (fun r => r.pkVal == item_id) = none) :
    (_update pk store item_id payload o).2 = Except.error ⟨404, "Item not found."⟩ ∧
    (_update pk store item_id payload o).1 = store ∧
    _get_one store item_id = Except.error ⟨404, "Item not found."⟩ ∧
    (_delete_one store item_id o).2 = Except.error ⟨404, "Item not found."⟩ ∧
    (_delete_one store item_id o).1 = store := by
  have hg : _get_one store item_id = Except.error ⟨404, "Item not found."⟩ := by
    rw [_get_one, h]
  exact ⟨by simp [_update, hg], by simp [_update, hg], hg,
    by simp [_delete_one, hg], by simp [_delete_one, hg]⟩

/-- Witness for C5 at a store holding only the row with key 1, a missing id 7 and a
concrete engine outcome. -/
theorem c5_update_not_found_first_witness :
    (_update "id" [⟨1, []⟩] 7 [("name", Value.strV "b")] CommitOutcome.ok).2 =
      Except.error ⟨404, "Item not found."⟩ ∧
    (_update "id" [⟨1, []⟩] 7 [("name", Value.strV "b")] CommitOutcome.ok).1 = [⟨1, []⟩] ∧
    _get_one [⟨1, []⟩] 7 = Except.error ⟨404, "Item not found."⟩ ∧
    (_delete_one [⟨1, []⟩] 7 CommitOutcome.ok).2 = Except.error ⟨404, "Item not found."⟩ ∧
    (_delete_one [⟨1, []⟩] 7 CommitOutcome.ok).1 = [⟨1, []⟩] :=
  c5_update_not_found_first "id" [⟨1, []⟩] 7 [("name", Value.strV "b")] CommitOutcome.ok
    (by decide)

theorem applyPayload_cons (pk : String) (r : Record) (kv : String × Value)
    (rest : List (String × Value)) :
    applyPayload pk r (kv :: rest) =
      applyPayload pk
        (if kv.1 ≠ pk ∧ Record.hasattr pk r kv.1 = true then r.setAttr kv.1 kv.2 else r)
        rest := rfl

theorem setAttr_pkVal (r : Record) (f : String) (v : Value) :
    (r.setAttr f v).pkVal = r.pkVal := rfl

theorem applyPayload_pkVal (pk : String) (p : List (String × Value)) : ∀ r : Record,
    (applyPayload pk r p).pkVal = r.pkVal := by
  induction p with
  | nil => intro r; rfl
  | cons kv rest ih =>
    intro r
    rw [applyPayload_cons, ih]
    split <;> rfl

theorem setmap_head (k f : String) (w v : Value) :
    (if (k, w).1 == f then ((k, w).1, v) else (k, w)) = (k, if k == f then v else w) := by
  by_cases hf : (k == f) = true <;> simp [hf]

theorem lookup_setmap_ne (l : List (String × Value)) (f g : String) (v : Value)
    (h : g ≠ f) :
    (l.map fun kv => if kv.1 == f then (kv.1, v) else kv).lookup g = l.lookup g := by
  induction l with
  | nil => rfl
  | cons kv t ih =>
    obtain ⟨k, w⟩ := kv
    rw [List.map_cons, setmap_head, List.lookup_cons, List.lookup_cons]
    by_cases hg : (g == k) = true
    · rw [hg]
      have hk : (k == f) = false := by
        rw [beq_eq_false_iff_ne]
        intro he
        exact h ((beq_iff_eq.mp hg).trans he)
      simp [hk]
    · rw [Bool.not_eq_true] at hg
      rw [hg]
      simpa using ih

theorem lookup_setmap_eq (l : List (String × Value)) (f : String) (v : Value)
    (h : (l.lookup f).isSome = true) :
    (l.map fun kv => if kv.1 == f then (kv.1, v) else kv).lookup f = some v := by
  induction l with
  | nil => simp [List.lookup] at h
  | cons kv t ih =>
    obtain ⟨k, w⟩ := kv
    rw [List.lookup_cons] at h
    rw [List.map_cons, setmap_head, List.lookup_cons]
    by_cases hf : (f == k) = true
    · rw [hf]
      have hkf : (k == f) = true := beq_iff_eq.mpr (beq_iff_eq.mp hf).symm
      simp [hkf]
    · rw [Bool.not_eq_true] at hf
      rw [hf] at h
      rw [hf]
      exact ih (by simpa using h)

theorem applyPayload_lookup_absent (pk f : String) : ∀ (p : List (String × Value)) (r : Record),
    f ∉ p.map Prod.fst →
    (applyPayload pk r p).attrs.lookup f = r.attrs.lookup f := by
  intro p
  induction p with
  | nil => intro r _; rfl
  | cons kv rest ih =>
    intro r hf
    obtain ⟨k, w⟩ := kv
    simp only [List.map_cons, List.mem_cons] at hf
    push_neg at hf
    obtain ⟨hfk, hfrest⟩ := hf
    rw [applyPayload_cons, ih _ hfrest]
    split
    · exact lookup_setmap_ne r.attrs k f w hfk
    · rfl

theorem applyPayload_getField_absent (pk f : String) (p : List (String × Value)) (r : Record)
    (hf : f ∉ p.map Prod.fst) :
    (applyPayload pk r p).getField pk f = r.getField pk f := by
  by_cases h : f = pk
  · simp [Record.getField, h, applyPayload_pkVal]
  · simp [Record.getField, h, applyPayload_lookup_absent pk f p r hf]

theorem applyPayload_lookup_present (pk f : String) (v : Value) :
    ∀ (p : List (String × Value)) (r : Record),
    (p.map Prod.fst).Nodup → (f, v) ∈ p → f ≠ pk → (r.attrs.lookup f).isSome = true →
    (applyPayload pk r p).attrs.lookup f = some v := by
  intro p
  induction p with
  | nil => intro r _ hmem; cases hmem
  | cons kv rest ih =>
    intro r hnd hmem hfpk hhas
    obtain ⟨k, w⟩ := kv
    simp only [List.map_cons, List.nodup_cons] at hnd
    obtain ⟨hknotin, hndrest⟩ := hnd
    rw [applyPayload_cons]
    rcases List.mem_cons.mp hmem with heq | hmemrest
    · injection heq with h1 h2
      subst h1
      subst h2
      have hcond : f ≠ pk ∧ Record.hasattr pk r f = true :=
        ⟨hfpk, by simp [Record.hasattr, hhas]⟩
      rw [if_pos hcond]
      rw [applyPayload_lookup_absent pk f rest _ hknotin]
      exact lookup_setmap_eq r.attrs f v hhas
    · have hfk : f ≠ k := by
        intro hk
        subst hk
        exact hknotin (List.mem_map_of_mem Prod.fst hmemrest)
      split
      · refine ih _ hndrest hmemrest hfpk ?_
        show ((r.setAttr k w).attrs.lookup f).isSome = true
        rw [Record.setAttr] at *
        rw [lookup_setmap_ne r.attrs k f w hfk]
        exact hhas
      · exact ih _ hndrest hmemrest hfpk hhas

/-- Claim C6: a successful update returns the fetched row with exactly the payload fields
applied: fields absent from the payload keep their prior values, payload fields other than
the primary key that exist on the row are overwritten with the payload values, and the
primary-key value is never altered regardless of payload content. -/
theorem c6_update_frame (pk : String) (store : List Record) (item_id : Nat)
    (payload : List (String × Value)) (r : Record)
    (hfind : store.find? (fun x => x.pkVal == item_id) = some r)
    (hnd : (payload.map Prod.fst).Nodup) :
    (_update pk store item_id payload CommitOutcome.ok).2 =
      Except.ok (applyPayload pk r payload) ∧
    (applyPayload pk r payload).pkVal = r.pkVal ∧
    (∀ f, f ∉ payload.map Prod.fst →
      (applyPayload pk r payload).getField pk f = r.getField pk f) ∧
    (∀ f v, (f, v) ∈ payload → f ≠ pk → (r.attrs.lookup f).isSome = true →
      (applyPayload pk r payload).attrs.lookup f = some v) := by
  refine ⟨?_, applyPayload_pkVal pk payload r,
    fun f hf => applyPayload_getField_absent pk f payload r hf,
    fun f v hm hf hh => applyPayload_lookup_present pk f v payload r hnd hm hf hh⟩
  simp [_update, _get_one, hfind, classifyCommit]

/-- Witness for C6 at a concrete row with two columns, updating one of them. -/
theorem c6_update_frame_witness :
    (_update "id" [⟨1, [("name", Value.strV "a"), ("age", Value.intV 3)]⟩] 1
        [("name", Value.strV "b")] CommitOutcome.ok).2 =
      Except.ok (applyPayload "id" ⟨1, [("name", Value.strV "a"), ("age", Value.intV 3)]⟩
        [("name", Value.strV "b")]) ∧
    (applyPayload "id" ⟨1, [("name", Value.strV "a"), ("age", Value.intV 3)]⟩
        [("name", Value.strV "b")]).pkVal = 1 ∧
    (applyPayload "id" ⟨1, [("name", Value.strV "a"), ("age", Value.intV 3)]⟩
        [("name", Value.strV "b")]).getField "id" "age" = some (Value.intV 3) ∧
    (applyPayload "id" ⟨1, [("name", Value.strV "a"), ("age", Value.intV 3)]⟩
        [("name", Value.strV "b")]).attrs.lookup "name" = some (Value.strV "b") := by
  have h := c6_update_frame "id" [⟨1, [("name", Value.strV "a"), ("age", Value.intV 3)]⟩] 1
    [("name", Value.strV "b")] ⟨1, [("name", Value.strV "a"), ("age", Value.intV 3)]⟩
    (by decide) (by decide)
  refine ⟨h.1, h.2.1, ?_, ?_⟩
  · exact (h.2.2.1 "age" (by decide)).trans (by decide)
  · exact h.2.2.2 "name" (Value.strV "b") (by decide) (by decide) (by decide)

theorem parse_err_422 (cols : List (String × FieldType)) : ∀ qp : List (String × String),
    (∀ kv ∈ qp, kv.1 ≠ "skip" → kv.1 ≠ "limit" → (cols.lookup kv.1).isSome = true) →
    (∃ kv ∈ qp, kv.1 ≠ "skip" ∧ kv.1 ≠ "limit" ∧
      (cols.lookup kv.1).map (fun t => pythonCast t kv.2) = some none) →
    ∃ d, _parse_query_params cols qp = Except.error ⟨422, d⟩ := by
  intro qp
  induction qp with
  | nil =>
    intro _ hex
    simp at hex
  | cons kv rest ih =>
    intro hall hex
    obtain ⟨k, v⟩ := kv
    by_cases hsl : k = "skip" ∨ k = "limit"
    · obtain ⟨kv0, hm0, h1, h2, h3⟩ := hex
      have hm0r : kv0 ∈ rest := by
        rcases List.mem_cons.mp hm0 with heq | hm
        · subst heq
          rcases hsl with h | h
          · exact absurd h h1
          · exact absurd h h2
        · exact hm
      obtain ⟨d, hd⟩ := ih (fun kv hm => hall kv (List.mem_cons_of_mem _ hm))
        ⟨kv0, hm0r, h1, h2, h3⟩
      refine ⟨d, ?_⟩
      simp only [_parse_query_params]
      rw [if_pos hsl]
      exact hd
    · push_neg at hsl
      obtain ⟨hns, hnl⟩ := hsl
      have hk : (cols.lookup k).isSome = true :=
        hall (k, v) (List.mem_cons_self _ _) hns hnl
      obtain ⟨t, ht⟩ := Option.isSome_iff_exists.mp hk
      cases hcast : pythonCast t v with
      | none =>
        exact ⟨"Invalid value for " ++ k,
          by simp [_parse_query_params, hns, hnl, ht, hcast]⟩
      | some pv =>
        obtain ⟨kv0, hm0, h1, h2, h3⟩ := hex
        have hm0r : kv0 ∈ rest := by
          rcases List.mem_cons.mp hm0 with heq | hm
          · subst heq
            rw [ht] at h3
            simp [hcast] at h3
          · exact hm
        obtain ⟨d, hd⟩ := ih (fun kv hm => hall kv (List.mem_cons_of_mem _ hm))
          ⟨kv0, hm0r, h1, h2, h3⟩
        exact ⟨d, by simp [_parse_query_params, hns, hnl, ht, hcast, hd, Except.map]⟩

theorem parse_err_400 (cols : List (String × FieldType)) : ∀ qp : List (String × String),
    (∀ kv ∈ qp, ((cols.lookup kv.1).all fun t => (pythonCast t kv.2).isSome) = true) →
    (∃ kv ∈ qp, kv.1 ≠ "skip" ∧ kv.1 ≠ "limit" ∧ cols.lookup kv.1 = none) →
    ∃ d, _parse_query_params cols qp = Except.error ⟨400, d⟩ := by
  intro qp
  induction qp with
  | nil =>
    intro _ hex
    simp at hex
  | cons kv rest ih =>
    intro hall hex
    obtain ⟨k, v⟩ := kv
    by_cases hsl : k = "skip" ∨ k = "limit"
    · obtain ⟨kv0, hm0, h1, h2, h3⟩ := hex
      have hm0r : kv0 ∈ rest := by
        rcases List.mem_cons.mp hm0 with heq | hm
        · subst heq
          rcases hsl with h | h
          · exact absurd h h1
          · exact absurd h h2
        · exact hm
      obtain ⟨d, hd⟩ := ih (fun kv hm => hall kv (List.mem_cons_of_mem _ hm))
        ⟨kv0, hm0r, h1, h2, h3⟩
      refine ⟨d, ?_⟩
      simp only [_parse_query_params]
      rw [if_pos hsl]
      exact hd
    · push_neg at hsl
      obtain ⟨hns, hnl⟩ := hsl
      cases hlk : cols.lookup k with
      | none =>
        exact ⟨"Invalid filter field: " ++ k,
          by simp [_parse_query_params, hns, hnl, hlk]⟩
      | some t =>
        have hcast : (pythonCast t v).isSome = true := by
          have hx := hall (k, v) (List.mem_cons_self _ _)
          rw [hlk] at hx
          simpa [Option.all] using hx
        obtain ⟨pv, hpv⟩ := Option.isSome_iff_exists.mp hcast
        obtain ⟨kv0, hm0, h1, h2, h3⟩ := hex
        have hm0r : kv0 ∈ rest := by
          rcases List.mem_cons.mp hm0 with heq | hm
          · subst heq
            rw [hlk] at h3
            exact absurd h3 (by simp)
          · exact hm
        obtain ⟨d, hd⟩ := ih (fun kv hm => hall kv (List.mem_cons_of_mem _ hm))
          ⟨kv0, hm0r, h1, h2, h3⟩
        exact ⟨d, by simp [_parse_query_params, hns, hnl, hlk, hpv, hd, Except.map]⟩

/-- Claim C2: on a list request, a query-parameter key other than skip and limit that names
no declared column makes parsing fail with 400, a key naming a declared column whose value
does not coerce to the column type makes it fail with 422 (the two failures being
distinguishable by status), and a parse failure is returned identically for every store,
before any backend query is issued. -/
theorem c2_filter_validation (cols : List (String × FieldType)) (qp : List (String × String)) :
    ((∀ kv ∈ qp, kv.1 ≠ "skip" → kv.1 ≠ "limit" → (cols.lookup kv.1).isSome = true) →
     (∃ kv ∈ qp, kv.1 ≠ "skip" ∧ kv.1 ≠ "limit" ∧
        (cols.lookup kv.1).map (fun t => pythonCast t kv.2) = some none) →
      ∃ d, _parse_query_params cols qp = Except.error ⟨422, d⟩) ∧
    ((∀ kv ∈ qp, ((cols.lookup kv.1).all fun t => (pythonCast t kv.2).isSome) = true) →
     (∃ kv ∈ qp, kv.1 ≠ "skip" ∧ kv.1 ≠ "limit" ∧ cols.lookup kv.1 = none) →
      ∃ d, _parse_query_params cols qp = Except.error ⟨400, d⟩) ∧
    (∀ e, _parse_query_params cols qp = Except.error e →
      ∀ pk store skip limit, _get_all pk cols store qp skip limit = Except.error e) :=
  ⟨parse_err_422 cols qp, parse_err_400 cols qp,
    fun e he pk store skip limit => by simp [_get_all, he]⟩

/-- Witness for C2 at a two-column schema: a wrongly typed value for a declared integer
column fails 422, an undeclared key fails 400, and the 400 failure of the full list route
is independent of the store contents. -/
theorem c2_filter_validation_witness :
    (∃ d, _parse_query_params [("id", FieldType.intT), ("age", FieldType.intT)]
        [("age", "abc")] = Except.error ⟨422, d⟩) ∧
    (∃ d, _parse_query_params [("id", FieldType.intT), ("age", FieldType.intT)]
        [("bogus", "1")] = Except.error ⟨400, d⟩) ∧
    _get_all "id" [("id", FieldType.intT), ("age", FieldType.intT)] [⟨5, []⟩]
        [("bogus", "1")] 0 100 = Except.error ⟨400, "Invalid filter field: bogus"⟩ := by
  refine ⟨(c2_filter_validation [("id", FieldType.intT), ("age", FieldType.intT)]
      [("age", "abc")]).1 (by decide) (by decide),
    (c2_filter_validation [("id", FieldType.intT), ("age", FieldType.intT)]
      [("bogus", "1")]).2.1 (by decide) (by decide),
    (c2_filter_validation [("id", FieldType.intT), ("age", FieldType.intT)]
      [("bogus", "1")]).2.2 ⟨400, "Invalid filter field: bogus"⟩ rfl "id"
      [⟨5, []⟩] 0 100⟩

/-- Claim C3: a list request whose result is empty after applying the filters and the
skip/limit window fails with 404 rather than returning an empty list, and a successful
list response is never the empty list. -/
theorem c3_empty_result_not_found (pk : String) (cols : List (String × FieldType))
    (store : List Record) (qp : List (String × String)) (skip limit : Nat) :
    (∀ filters, _parse_query_params cols qp = Except.ok filters →
      _get_all_query pk store filters skip limit = [] →
      _get_all pk cols store qp skip limit =
        Except.error ⟨404, "No matching records found."⟩) ∧
    (∀ l, _get_all pk cols store qp skip limit = Except.ok l → l ≠ []) := by
  constructor
  · intro filters hp he
    simp [_get_all, hp, he]
  · intro l hl hnil
    subst hnil
    cases hp : _parse_query_params cols qp with
    | error e => simp [_get_all, hp] at hl
    | ok filters =>
      simp only [_get_all, hp] at hl
      by_cases hq : (_get_all_query pk store filters skip limit).isEmpty = true
      · rw [if_pos hq] at hl
        exact Except.noConfusion hl
      · rw [if_neg hq] at hl
        injection hl with hl2
        rw [hl2] at hq
        exact hq rfl

/-- Witness for C3: an empty store yields 404 from the list route, and a store with one row
yields a nonempty success. -/
theorem c3_empty_result_not_found_witness :
    _get_all "id" [] ([] : List Record) [] 0 100 =
      Except.error ⟨404, "No matching records found."⟩ ∧
    ([⟨1, []⟩] : List Record) ≠ [] :=
  ⟨(c3_empty_result_not_found "id" [] [] [] 0 100).1 [] rfl rfl,
   (c3_empty_result_not_found "id" [] [⟨1, []⟩] [] 0 100).2 [⟨1, []⟩] rfl⟩

theorem mem_insertByPk (r a : Record) (l : List Record) :
    a ∈ insertByPk r l ↔ a = r ∨ a ∈ l := by
  induction l with
  | nil => simp [insertByPk]
  | cons x xs ih =>
    rw [insertByPk]
    split
    · simp
    · simp only [List.mem_cons, ih]
      tauto

theorem sorted_insertByPk (r : Record) (l : List Record)
    (h : List.Pairwise (fun a b => a.pkVal ≤ b.pkVal) l) :
    List.Pairwise (fun a b => a.pkVal ≤ b.pkVal) (insertByPk r l) := by
  induction l with
  | nil => simp [insertByPk]
  | cons x xs ih =>
    obtain ⟨hx, hxs⟩ := List.pairwise_cons.mp h
    rw [insertByPk]
    by_cases hle : r.pkVal ≤ x.pkVal
    · rw [if_pos hle]
      refine List.Pairwise.cons ?_ h
      intro b hb
      rcases List.mem_cons.mp hb with heq | hbm
      · rw [heq]
        exact hle
      · exact Nat.le_trans hle (hx b hbm)
    · rw [if_neg hle]
      refine List.Pairwise.cons ?_ (ih hxs)
      intro b hb
      rcases (mem_insertByPk r b xs).mp hb with heq | hbm
      · rw [heq]
        exact Nat.le_of_not_le hle
      · exact hx b hbm

theorem sorted_sortByPk (l : List Record) :
    List.Pairwise (fun a b => a.pkVal ≤ b.pkVal) (sortByPk l) := by
  induction l with
  | nil => simp [sortByPk]
  | cons x xs ih =>
    rw [sortByPk]
    exact sorted_insertByPk x _ ih

theorem mem_sortByPk (a : Record) (l : List Record) : a ∈ sortByPk l ↔ a ∈ l := by
  induction l with
  | nil => simp [sortByPk]
  | cons x xs ih =>
    rw [sortByPk, mem_insertByPk]
    simp [ih]

/-- Claim C8: every successful list response is ordered by primary key ascending (the
offset/limit window is applied to the sorted filtered rows), and with no filters, skip 0
and limit 1 on a nonempty collection the response is exactly one record, the one with the
smallest primary key. -/
theorem c8_ordering_and_window (pk : String) (cols : List (String × FieldType))
    (store : List Record) (qp : List (String × String)) (skip limit : Nat)
    (l : List Record) (h : _get_all pk cols store qp skip limit = Except.ok l) :
    List.Pairwise (fun a b => a.pkVal ≤ b.pkVal) l ∧
    (qp = [] → skip = 0 → limit = 1 → store ≠ [] →
      ∃ r, l = [r] ∧ r ∈ store ∧ ∀ x ∈ store, r.pkVal ≤ x.pkVal) := by
  constructor
  · cases hp : _parse_query_params cols qp with
    | error e => simp [_get_all, hp] at h
    | ok filters =>
      simp only [_get_all, hp] at h
      by_cases hq : (_get_all_query pk store filters skip limit).isEmpty = true
      · rw [if_pos hq] at h
        exact Except.noConfusion h
      · rw [if_neg hq] at h
        injection h with h2
        subst h2
        have hs := sorted_sortByPk (store.filter fun r => matchesFilters pk r filters)
        have hsub :
            List.Sublist (_get_all_query pk store filters skip limit)
              (sortByPk (store.filter fun r => matchesFilters pk r filters)) :=
          List.Sublist.trans (List.take_sublist _ _) (List.drop_sublist _ _)
        exact hs.sublist hsub
  · intro hqp h0 h1 hne
    subst hqp
    subst h0
    subst h1
    have hp : _parse_query_params cols [] = Except.ok [] := rfl
    have hfil : (store.filter fun r => matchesFilters pk r []) = store := by
      simp [matchesFilters]
    simp only [_get_all, hp, _get_all_query, hfil, List.drop_zero] at h
    cases hs : sortByPk store with
    | nil =>
      exfalso
      obtain ⟨y, ys⟩ := List.exists_cons_of_ne_nil hne
      obtain ⟨ys2, hys⟩ := ys
      have : y ∈ sortByPk store := (mem_sortByPk y store).mpr (by rw [hys]; exact List.mem_cons_self _ _)
      rw [hs] at this
      cases this
    | cons r rs =>
      rw [hs] at h
      rw [show List.take 1 (r :: rs) = [r] from rfl] at h
      rw [show (List.isEmpty [r]) = false from rfl] at h
      simp only [Bool.false_eq_true, if_false] at h
      injection h with h2
      have hsorted := sorted_sortByPk store
      rw [hs] at hsorted
      obtain ⟨hr, -⟩ := List.pairwise_cons.mp hsorted
      refine ⟨r, h2.symm, (mem_sortByPk r store).mp (by rw [hs]; exact List.mem_cons_self _ _), ?_⟩
      intro x hx
      have hx2 : x ∈ sortByPk store := (mem_sortByPk x store).mpr hx
      rw [hs] at hx2
      rcases List.mem_cons.mp hx2 with heq | hxm
      · rw [heq]
      · exact hr x hxm

/-- Witness for C8: a collection of three records listed with skip 0 and limit 1 returns
exactly the record with the smallest primary key. -/
theorem c8_ordering_and_window_witness :
    ∃ r : Record, r ∈ ([⟨2, []⟩, ⟨1, []⟩, ⟨3, []⟩] : List Record) ∧
      (∀ x ∈ ([⟨2, []⟩, ⟨1, []⟩, ⟨3, []⟩] : List Record), r.pkVal ≤ x.pkVal) ∧
      _get_all "id" [("id", FieldType.intT)] [⟨2, []⟩, ⟨1, []⟩, ⟨3, []⟩] [] 0 1 =
        Except.ok [r] := by
  have h0 : _get_all "id" [("id", FieldType.intT)] [⟨2, []⟩, ⟨1, []⟩, ⟨3, []⟩] [] 0 1 =
      Except.ok [⟨1, []⟩] := rfl
  obtain ⟨-, hscen⟩ := c8_ordering_and_window "id" [("id", FieldType.intT)]
    [⟨2, []⟩, ⟨1, []⟩, ⟨3, []⟩] [] 0 1 [⟨1, []⟩] h0
  obtain ⟨r, hl, hmem, hmin⟩ := hscen rfl rfl rfl (by decide)
  refine ⟨r, hmem, hmin, ?_⟩
  rw [← hl]
  exact h0

theorem isPrefixOf_append_self (p t : List Char) : p.isPrefixOf (p ++ t) = true := by
  induction p with
  | nil => cases t <;> rfl
  | cons c cs ih => simp [List.isPrefixOf, ih]

theorem containsSub_of_prefix (p h : List Char) (hp : p.isPrefixOf h = true) :
    containsSub p h = true := by
  cases h with
  | nil =>
    cases p with
    | nil => rfl
    | cons c cs => simp [List.isPrefixOf] at hp
  | cons c t =>
    rw [containsSub, hp]
    rfl

theorem containsSub_append_left (p s t : List Char) (h : containsSub p t = true) :
    containsSub p (s ++ t) = true := by
  induction s with
  | nil => exact h
  | cons c cs ih =>
    rw [List.cons_append, containsSub, ih]
    simp

theorem strContains_append_self (a b c : String) :
    strContains (a ++ b ++ c) b = true := by
  rw [strContains]
  rw [String.data_append, String.data_append, List.append_assoc]
  exact containsSub_append_left _ _ _ (isPrefixOf_append_self b.data c.data ▸
    containsSub_of_prefix b.data (b.data ++ c.data) (isPrefixOf_append_self b.data c.data))

theorem strContains_append_end (a b : String) : strContains (a ++ b) b = true := by
  have h := strContains_append_self a b ""
  rw [String.append_empty] at h
  exact h

/-- The counterexample to claim C9 as stated: AsyncCroutonClient.get on a 404 response does
not surface a generic client-side failure carrying the origin status and body text; its
call to the nonexistent model_dump_json raises an AttributeError — a different failure
shape carrying neither. -/
theorem c9_counterexample_async_failure_shape :
    async_client_result ⟨404, "Not Found"⟩ =
      ClientOutcome.attributeError "model_dump_json" ∧
    ¬ carries_status_and_body ⟨404, "Not Found"⟩ (async_client_result ⟨404, "Not Found"⟩) := by
  refine ⟨rfl, ?_⟩
  rintro ⟨m, hm, -, -⟩
  rw [show async_client_result ⟨404, "Not Found"⟩ =
    ClientOutcome.attributeError "model_dump_json" from rfl] at hm
  exact ClientOutcome.noConfusion hm

/-- Claim C9 as amended: for every CroutonClient operation (synchronous and asynchronous
methods alike) a non-2xx response is surfaced as the single ValueError carrying the origin
status code and the response body text; but every AsyncCroutonClient method calls
model_dump_json() on its requests response — a method the response does not have — so any
response, whatever its status, is surfaced as an AttributeError carrying neither status
nor body, the bare raise ValueError of the non-200 path being unreachable. -/
theorem c9_amended_client_failures (verb : String) (res : Resp) :
    (is_success res = false →
      client_request_result verb res =
        ClientOutcome.valueError
          (some (verb ++ " request failed with status " ++ toString res.status_code ++
            ": " ++ res.text)) ∧
      carries_status_and_body res (client_request_result verb res)) ∧
    async_client_result res = ClientOutcome.attributeError "model_dump_json" ∧
    ¬ carries_status_and_body res (async_client_result res) := by
  refine ⟨?_, ?_, ?_⟩
  · intro h
    have he : client_request_result verb res =
        ClientOutcome.valueError
          (some (verb ++ " request failed with status " ++ toString res.status_code ++
            ": " ++ res.text)) := by
      rw [client_request_result, h]
      rfl
    refine ⟨he, ?_⟩
    rw [he]
    refine ⟨verb ++ " request failed with status " ++ toString res.status_code ++
      ": " ++ res.text, rfl, ?_, ?_⟩
    · rw [String.append_assoc (verb ++ " request failed with status " ++
        toString res.status_code) ": " res.text]
      exact strContains_append_self (verb ++ " request failed with status ")
        (toString res.status_code) (": " ++ res.text)
    · exact strContains_append_end
        (verb ++ " request failed with status " ++ toString res.status_code ++ ": ") res.text
  · rw [async_client_result]
    split <;> rfl
  · rintro ⟨m, hm, -, -⟩
    rw [async_client_result] at hm
    rcases em (res.status_code = 200) with h | h
    · rw [if_pos h] at hm
      exact ClientOutcome.noConfusion hm
    · rw [if_neg h] at hm
      exact ClientOutcome.noConfusion hm

/-- Witness for the amended C9 at a concrete 404 response: the CroutonClient failure is the
single ValueError carrying status and body, while the AsyncCroutonClient call surfaces the
AttributeError of the missing model_dump_json. -/
theorem c9_amended_client_failures_witness :
    (client_request_result "GET" ⟨404, "missing"⟩ =
      ClientOutcome.valueError
        (some ("GET" ++ " request failed with status " ++ toString (404 : Nat) ++
          ": " ++ "missing")) ∧
      carries_status_and_body ⟨404, "missing"⟩ (client_request_result "GET" ⟨404, "missing"⟩)) ∧
    async_client_result ⟨404, "missing"⟩ = ClientOutcome.attributeError "model_dump_json" :=
  ⟨(c9_amended_client_failures "GET" ⟨404, "missing"⟩).1 (by decide),
   (c9_amended_client_failures "GET" ⟨404, "missing"⟩).2.1⟩

end Crouton
